import Mathlib

/-!
Shallow embedding of the scheduled-workflow scanner of younsl/gss
(pkg/scanner/scanner.go together with pkg/models' ScanResult/WorkflowInfo).

External GitHub API calls and the YAML library are modelled as an
environment (`Env`) of oracle functions: each remote call is a function of
the arguments the Go code passes to it, returning `Except` for fallibility.
Pagination of the repository listing (`ListByOrg` called repeatedly while
`resp.NextPage != 0`) is modelled as the list of successive page results.

The concurrent fan-out (goroutines appending under `resultMutex` /
`errorMutex`) is determinized to sequential, in-listing-order processing:
the code itself guarantees no order across tasks, and every claim below is
about membership, counts, or error collection, all invariant under the
append order.  The semaphore discipline of the fan-out loop is modelled
separately as a small transition system (`SemState` / `SemStep`).
-/

/-- Generic parsed-YAML value, the shape `gopkg.in/yaml.v3` produces when
unmarshalling into `map[string]interface{}` (Go maps have unique keys, so an
association list with first-match lookup models them). -/
inductive YVal where
  | str : String → YVal
  | boolean : Bool → YVal
  | num : Int → YVal
  | null : YVal
  | arr : List YVal → YVal
  | map : List (String × YVal) → YVal
deriving Repr

/-- Go map indexing `m[k]` on a `map[string]interface{}`. -/
def ylookup (m : List (String × YVal)) (k : String) : Option YVal :=
  (m.find? (fun p => p.1 == k)).map (fun p => p.2)

/-- extractSchedules (scanner.go:341-355): walks `workflow["on"]` as a map,
`on["schedule"]` as an array, and collects every entry that is a map whose
"cron" key holds a string.  The Go loop appends matching entries in order
and skips the rest, i.e. a filterMap. -/
def extractSchedules (workflow : List (String × YVal)) : List String :=
  match ylookup workflow "on" with
  | some (YVal.map onSection) =>
    match ylookup onSection "schedule" with
    | some (YVal.arr schedule) =>
      schedule.filterMap (fun s =>
        match s with
        | YVal.map cronMap =>
          match ylookup cronMap "cron" with
          | some (YVal.str cron) => some cron
          | _ => none
        | _ => none)
    | _ => []
  | _ => []

/-- The per-entry selector of extractSchedules' loop body, named for the
specification theorems: an entry contributes its cron string iff it is a
map whose "cron" key holds a string. -/
def cronOfEntry : YVal → Option String
  | YVal.map cronMap =>
    match ylookup cronMap "cron" with
    | some (YVal.str cron) => some cron
    | _ => none
  | _ => none

/-- A repository as seen through the listing (name and archived flag are the
fields the scanner consults). -/
structure Repository where
  name : String
  archived : Bool
deriving Repr, DecidableEq

/-- A workflow definition as returned by ListWorkflows. -/
structure Workflow where
  id : Int
  name : String
  path : String
deriving Repr, DecidableEq

/-- One workflow run; `status` is the Status field of the most recent run. -/
structure WorkflowRun where
  status : String
deriving Repr, DecidableEq

/-- One repository commit: `author` models the nullable GitHub-user object
(`commits[0].Author`) whose nullable `Login` is the inner option;
`commitAuthorName` models the nil-safe `commits[0].Commit.GetAuthor()`
(none when the commit has no author object) with `GetName()`. -/
structure RepositoryCommit where
  author : Option (Option String)
  commitAuthorName : Option String
deriving Repr, DecidableEq

/-- models.WorkflowInfo. -/
structure WorkflowInfo where
  repoName : String
  workflowName : String
  workflowID : Int
  workflowFileName : String
  cronSchedules : List String
  lastStatus : String
  lastCommitter : String
  isActiveUser : Bool
deriving Repr, DecidableEq

/-- models.ScanResult.  `excludedReposCount` is the ExcludedReposCount field
of the Go struct; ScanScheduledWorkflows never assigns it, so it keeps the
Go zero value 0.  ScanDuration and MaxConcurrentScans are wall-clock /
scheduling diagnostics outside this functional model. -/
structure ScanResult where
  workflows : List WorkflowInfo
  totalRepos : Nat
  excludedReposCount : Nat
deriving Repr, DecidableEq

/-- The GitHubClient interface plus the YAML library, as oracles.  Remote
calls are keyed by the arguments the scanner passes (repository name,
workflow path/id, user login).  `listByOrg` is the sequence of page results
the paginated listing would yield. -/
structure Env where
  listByOrg : List (Except String (List Repository))
  listWorkflows : String → Except String (List Workflow)
  getContents : String → String → Except String String
  parseYaml : String → Except String (List (String × YVal))
  listWorkflowRuns : String → Int → Except String (List WorkflowRun)
  listCommits : String → String → Except String (List RepositoryCommit)
  getUser : String → Except String (Option Unit)

/-- The Scanner struct: the client lives in `Env`; `excludedRepos` is the
exclusion set loaded at construction (modelled as the list of names);
`concurrentScans` only drives the semaphore model. -/
structure Scanner where
  concurrentScans : Nat
  excludedRepos : List String
deriving Repr

/-- extractSchedulesWithValidation (scanner.go:329-337): parse, propagate the
parse error, otherwise extract. -/
def extractSchedulesWithValidation (env : Env) (content : String) :
    Except String (List String) :=
  match env.parseYaml content with
  | Except.error e => Except.error ("failed to parse workflow: " ++ e)
  | Except.ok workflow => Except.ok (extractSchedules workflow)

/-- checkWorkflowSchedule (scanner.go:296-325): fetch content (fetch or
GetContent failure ⇒ (false,"")), unmarshal it (parse failure ⇒ (false,"")),
then extract schedules; empty ⇒ (false,""), else (true, schedules[0]). -/
def checkWorkflowSchedule (env : Env) (repoName : String) (wf : Workflow) :
    Bool × String :=
  match env.getContents repoName wf.path with
  | Except.error _ => (false, "")
  | Except.ok contentStr =>
    match env.parseYaml contentStr with
    | Except.error _ => (false, "")
    | Except.ok _ =>
      match extractSchedulesWithValidation env contentStr with
      | Except.error _ => (false, "")
      | Except.ok [] => (false, "")
      | Except.ok (cron :: _) => (true, cron)

/-- The last-run-status computation of scanRepository (scanner.go:219-232):
`var lastStatus string` stays at the zero value "" when the run fetch
errored (runs == nil) or returned no runs; otherwise it is the status of
runs.WorkflowRuns[0]. -/
def lastRunStatus (env : Env) (repoName : String) (wfID : Int) : String :=
  match env.listWorkflowRuns repoName wfID with
  | Except.ok (r :: _) => r.status
  | _ => ""

/-- The last-committer computation of scanRepository (scanner.go:235-274):
branches exactly as the Go nil checks do; `GetName()` of a present author
object is its name (Go getters return "" for a nil name, folded into the
stored string). -/
def resolveCommitter (env : Env) (commits : List RepositoryCommit) :
    String × Bool :=
  match commits with
  | c :: _ =>
    match c.author with
    | some authorLogin =>
      match authorLogin with
      | some login =>
        match env.getUser login with
        | Except.error _ => (c.commitAuthorName.getD "", false)
        | Except.ok none => (c.commitAuthorName.getD "", false)
        | Except.ok (some _) => (c.commitAuthorName.getD "", true)
      | none =>
        match c.commitAuthorName with
        | some n => (n, false)
        | none => ("Unknown", false)
    | none => ("Unknown", false)
  | [] => ("Unknown", false)

/-- Assembles the models.WorkflowInfo literal of scanner.go:276-287 for a
workflow already known to be scheduled, with CronSchedules := [schedule]. -/
def buildWorkflowInfo (env : Env) (repo : Repository) (wf : Workflow)
    (schedule : String) : WorkflowInfo :=
  let lastStatus := lastRunStatus env repo.name wf.id
  let commits :=
    match env.listCommits repo.name wf.path with
    | Except.ok cs => cs
    | Except.error _ => []
  let committer := resolveCommitter env commits
  { repoName := repo.name
    workflowName := wf.name
    workflowID := wf.id
    workflowFileName := wf.path
    cronSchedules := [schedule]
    lastStatus := lastStatus
    lastCommitter := committer.1
    isActiveUser := committer.2 }

/-- scanRepository (scanner.go:195-294): a ListWorkflows failure is the only
error exit; otherwise each workflow that checkWorkflowSchedule marks as
scheduled contributes one WorkflowInfo, in listing order. -/
def scanRepository (env : Env) (repo : Repository) :
    Except String (List WorkflowInfo) :=
  match env.listWorkflows repo.name with
  | Except.error e => Except.error ("failed to list workflows: " ++ e)
  | Except.ok wfs =>
    Except.ok (wfs.filterMap (fun wf =>
      match checkWorkflowSchedule env repo.name wf with
      | (true, schedule) => some (buildWorkflowInfo env repo wf schedule)
      | (false, _) => none))

/-- The per-page fan-out body (scanner.go:115-162), determinized to listing
order: repositories in the exclusion set are skipped before a task is
launched; a failing scanRepository appends a wrapped error to scanErrors; a
succeeding one appends its workflows to results. -/
def processPage (s : Scanner) (env : Env) :
    List Repository → List WorkflowInfo × List String
  | [] => ([], [])
  | repo :: rest =>
    let tail := processPage s env rest
    if s.excludedRepos.contains repo.name then tail
    else
      match scanRepository env repo with
      | Except.error e =>
        (tail.1, ("failed to scan repository " ++ repo.name ++ ": " ++ e) :: tail.2)
      | Except.ok wfs => (wfs ++ tail.1, tail.2)

/-- The page loop of ScanScheduledWorkflows (scanner.go:98-189): a listing
error aborts with (nil, error); otherwise totalRepos accumulates len(repos)
before any filtering, each page is fanned out, and after the last page the
ScanResult is returned together with the final value of the scanErrors
local (which the Go code logs; errors never fail the operation). -/
def scanPages (s : Scanner) (env : Env) :
    List (Except String (List Repository)) → Nat → List WorkflowInfo →
    List String → Except String (ScanResult × List String)
  | [], totalRepos, results, scanErrors =>
    Except.ok
      ({ workflows := results, totalRepos := totalRepos, excludedReposCount := 0 },
       scanErrors)
  | page :: rest, totalRepos, results, scanErrors =>
    match page with
    | Except.error e => Except.error ("failed to list repositories: " ++ e)
    | Except.ok repos =>
      let pageOut := processPage s env repos
      scanPages s env rest (totalRepos + repos.length) (results ++ pageOut.1)
        (scanErrors ++ pageOut.2)

/-- ScanScheduledWorkflows (scanner.go:74-190), paired with the final
contents of its scanErrors collection. -/
def scanScheduledWorkflows (s : Scanner) (env : Env) :
    Except String (ScanResult × List String) :=
  scanPages s env env.listByOrg 0 [] []

/-- State of the fan-out loop's admission control (scanner.go:112-126):
`pending` eligible repositories not yet admitted by the main loop;
`admitted` slots acquired by `semaphore <- struct{}{}` whose goroutine has
not yet begun running; `inFlight` running scan tasks; `slots` semaphore
slots currently held. -/
structure SemState where
  pending : Nat
  admitted : Nat
  inFlight : Nat
  slots : Nat
deriving Repr, DecidableEq

/-- Interleaved steps of the fan-out under a channel of capacity `limit`:
the main goroutine can acquire a slot only while fewer than `limit` are
held (a send on a full buffered channel blocks); an admitted task may start
running; a finishing task leaves flight and releases its slot (the deferred
`<-semaphore` runs on every exit path). -/
inductive SemStep (limit : Nat) : SemState → SemState → Prop where
  | acquire : ∀ p a f s, s < limit →
      SemStep limit ⟨p + 1, a, f, s⟩ ⟨p, a + 1, f, s + 1⟩
  | start : ∀ p a f s,
      SemStep limit ⟨p, a + 1, f, s⟩ ⟨p, a, f + 1, s⟩
  | finish : ∀ p a f s,
      SemStep limit ⟨p, a, f + 1, s + 1⟩ ⟨p, a, f, s⟩

/-- States reachable from the start of a fan-out over `m` eligible
repositories: no slot held, nothing running. -/
inductive SemReachable (limit m : Nat) : SemState → Prop where
  | init : SemReachable limit m ⟨m, 0, 0, 0⟩
  | step : ∀ σ σ', SemReachable limit m σ → SemStep limit σ σ' →
      SemReachable limit m σ'

/-! ## Concrete fixtures (inputs for witnesses and counterexamples) -/

/-- A plain eligible repository. -/
def repoA : Repository := ⟨"repoA", false⟩

/-- The repository of the spec's end-to-end scenarios. -/
def repoB : Repository := ⟨"repoB", false⟩

/-- A repository flagged archived in the listing. -/
def repoLegacy : Repository := ⟨"legacy-batch", true⟩

/-- One workflow definition. -/
def wfDaily : Workflow := ⟨1, "daily", ".github/workflows/daily.yml"⟩

/-- Parsed workflow document with two cron entries under on.schedule. -/
def docTwoCrons : List (String × YVal) :=
  [("on", YVal.map [("schedule", YVal.arr
      [YVal.map [("cron", YVal.str "0 0 * * *")],
       YVal.map [("cron", YVal.str "30 1 * * *")]])])]

/-- Environment in which every call succeeds trivially and no repository
has workflows. -/
def baseTestEnv : Env :=
  { listByOrg := []
    listWorkflows := fun _ => Except.ok []
    getContents := fun _ _ => Except.ok ""
    parseYaml := fun _ => Except.error "empty document"
    listWorkflowRuns := fun _ _ => Except.ok []
    listCommits := fun _ _ => Except.ok []
    getUser := fun _ => Except.ok none }

/-- One page listing repoB, whose single workflow carries two cron entries,
has a completed run and an active committer. -/
def envTwoCrons : Env :=
  { baseTestEnv with
    listByOrg := [Except.ok [repoB]]
    listWorkflows := fun _ => Except.ok [wfDaily]
    getContents := fun _ _ => Except.ok "doc"
    parseYaml := fun _ => Except.ok docTwoCrons
    listWorkflowRuns := fun _ _ => Except.ok [⟨"completed"⟩]
    listCommits := fun _ _ => Except.ok [⟨some (some "alice"), some "Alice"⟩]
    getUser := fun _ => Except.ok (some ()) }

/-- As envTwoCrons, but the only listed repository is flagged archived. -/
def envArchivedScheduled : Env :=
  { envTwoCrons with listByOrg := [Except.ok [repoLegacy]] }

/-- As envTwoCrons, but the run-history fetch yields no runs. -/
def envNoRuns : Env :=
  { envTwoCrons with listWorkflowRuns := fun _ _ => Except.ok [] }

/-- As envTwoCrons, but the fetched workflow content fails to parse. -/
def envParseFail : Env :=
  { envTwoCrons with parseYaml := fun _ => Except.error "yaml: unmarshal errors" }

/-- Two eligible repositories; the workflow listing of repoA fails, repoB
scans fine. -/
def envWorkflowListFail : Env :=
  { envTwoCrons with
    listByOrg := [Except.ok [repoA, repoB]]
    listWorkflows := fun n =>
      if n == "repoA" then Except.error "boom" else Except.ok [wfDaily] }

/-- A second listing page fails after a successful first page. -/
def envListingFail : Env :=
  { baseTestEnv with
    listByOrg := [Except.ok [repoA], Except.error "connection reset",
      Except.ok [repoB]] }

/-- Two successful listing pages totalling three repositories, one of them
archived; no repository has workflows. -/
def envThreeRepos : Env :=
  { baseTestEnv with
    listByOrg := [Except.ok [repoA, repoB], Except.ok [repoLegacy]] }

/-- Scanner with the default concurrency and an empty exclusion set. -/
def scannerPlain : Scanner := ⟨10, []⟩

/-- Scanner whose exclusion list contains repoB's name. -/
def scannerExclB : Scanner := ⟨10, ["repoB"]⟩

/-- The WorkflowInfo the scanner produces for repoB under envTwoCrons. -/
def wiDaily : WorkflowInfo :=
  ⟨"repoB", "daily", 1, ".github/workflows/daily.yml", ["0 0 * * *"],
   "completed", "Alice", true⟩

/-! ## Theorems -/

/-- Invariant of the admission-control discipline: the tasks holding a slot
(admitted or running) never outnumber the held slots, and held slots never
exceed the channel capacity. -/
theorem semReachable_invariant {limit m : Nat} {σ : SemState}
    (h : SemReachable limit m σ) :
    σ.admitted + σ.inFlight ≤ σ.slots ∧ σ.slots ≤ limit := by
  induction h with
  | init => simp
  | step σ σ' _ hstep ih =>
    cases hstep with
    | acquire p a f s hs =>
      simp only [SemState.admitted, SemState.inFlight, SemState.slots] at ih ⊢
      omega
    | start p a f s =>
      simp only [SemState.admitted, SemState.inFlight, SemState.slots] at ih ⊢
      omega
    | finish p a f s =>
      simp only [SemState.admitted, SemState.inFlight, SemState.slots] at ih ⊢
      omega

/-- C1 (Concurrency bound): for a configured concurrency limit K ≥ 1 and
M ≥ K eligible repositories, every state the fan-out loop can reach has at
most K scan tasks simultaneously in flight, because a semaphore slot is
acquired before each task starts and released when it finishes. -/
theorem scan_concurrency_bound (K M : Nat) (σ : SemState)
    (hK : 1 ≤ K) (hM : K ≤ M) (h : SemReachable K M σ) :
    σ.inFlight ≤ K := by
  have hinv := semReachable_invariant h
  omega

/-- Witness for C1 at K = 2, M = 3, in the state reached after one slot
acquisition and one task start. -/
theorem scan_concurrency_bound_witness :
    (1 ≤ 2 ∧ 2 ≤ 3) ∧ (SemState.mk 2 0 1 1).inFlight ≤ 2 :=
  ⟨⟨by decide, by decide⟩,
   scan_concurrency_bound 2 3 (SemState.mk 2 0 1 1) (by decide) (by decide)
     (SemReachable.step _ _
       (SemReachable.step _ _ SemReachable.init
         (SemStep.acquire 2 0 0 0 (by decide)))
       (SemStep.start 2 0 0 1))⟩


/-- Workflows of a successfully scanned, non-excluded repository of a page
all land in that page's result collection. -/
theorem processPage_mem_of_ok {s : Scanner} {env : Env} {repos : List Repository}
    {r : Repository} {l : List WorkflowInfo}
    (hr : r ∈ repos) (hex : s.excludedRepos.contains r.name = false)
    (hok : scanRepository env r = Except.ok l) :
    ∀ wi ∈ l, wi ∈ (processPage s env repos).1 := by
  intro wi hwi
  have hex' : r.name ∉ s.excludedRepos := by simpa using hex
  induction repos with
  | nil => cases hr
  | cons repo rest ih =>
    rcases List.mem_cons.mp hr with hEq | hMem
    · subst hEq
      simp only [processPage]
      rw [if_neg (by simpa using hex')]
      rw [hok]
      exact List.mem_append_left _ hwi
    · have htail := ih hMem
      simp only [processPage]
      by_cases hx : repo.name ∈ s.excludedRepos
      · rw [if_pos (by simpa using hx)]
        exact htail
      · rw [if_neg (by simpa using hx)]
        cases hscan : scanRepository env repo with
        | error e => exact htail
        | ok wfs => exact List.mem_append_right _ htail

/-- A failing scanRepository of a non-excluded repository of a page is
recorded, wrapped, in that page's error collection. -/
theorem processPage_err_of_error {s : Scanner} {env : Env}
    {repos : List Repository} {r : Repository} {e : String}
    (hr : r ∈ repos) (hex : s.excludedRepos.contains r.name = false)
    (herr : scanRepository env r = Except.error e) :
    ("failed to scan repository " ++ r.name ++ ": " ++ e) ∈
      (processPage s env repos).2 := by
  have hex' : r.name ∉ s.excludedRepos := by simpa using hex
  induction repos with
  | nil => cases hr
  | cons repo rest ih =>
    rcases List.mem_cons.mp hr with hEq | hMem
    · subst hEq
      simp only [processPage]
      rw [if_neg (by simpa using hex')]
      rw [herr]
      exact List.mem_cons_self _ _
    · have htail := ih hMem
      simp only [processPage]
      by_cases hx : repo.name ∈ s.excludedRepos
      · rw [if_pos (by simpa using hx)]
        exact htail
      · rw [if_neg (by simpa using hx)]
        cases hscan : scanRepository env repo with
        | error e' => exact List.mem_cons_of_mem _ htail
        | ok wfs => exact htail

/-- Every workflow of a page's result collection comes from a successful
scanRepository of some repository of the page. -/
theorem processPage_mem_inv {s : Scanner} {env : Env} {repos : List Repository}
    {wi : WorkflowInfo} (h : wi ∈ (processPage s env repos).1) :
    ∃ r ∈ repos, ∃ l, scanRepository env r = Except.ok l ∧ wi ∈ l := by
  induction repos with
  | nil => simp [processPage] at h
  | cons repo rest ih =>
    simp only [processPage] at h
    by_cases hx : repo.name ∈ s.excludedRepos
    · rw [if_pos (by simpa using hx)] at h
      obtain ⟨r, hr, hl⟩ := ih h
      exact ⟨r, List.mem_cons_of_mem _ hr, hl⟩
    · rw [if_neg (by simpa using hx)] at h
      cases hscan : scanRepository env repo with
      | error e =>
        rw [hscan] at h
        obtain ⟨r, hr, hl⟩ := ih h
        exact ⟨r, List.mem_cons_of_mem _ hr, hl⟩
      | ok wfs =>
        rw [hscan] at h
        rcases List.mem_append.mp h with hHead | hTail
        · exact ⟨repo, List.mem_cons_self _ _, wfs, hscan, hHead⟩
        · obtain ⟨r, hr, hl⟩ := ih hTail
          exact ⟨r, List.mem_cons_of_mem _ hr, hl⟩

/-- Closed form of the page loop when every page listing succeeds. -/
theorem scanPages_eq_of_ok (s : Scanner) (env : Env) :
    ∀ (pages : List (List Repository)) (t : Nat) (results : List WorkflowInfo)
      (errs : List String),
    scanPages s env (pages.map Except.ok) t results errs =
      Except.ok
        ({ workflows :=
             results ++ (pages.map (fun p => (processPage s env p).1)).flatten,
           totalRepos := t + (pages.map List.length).sum,
           excludedReposCount := 0 },
         errs ++ (pages.map (fun p => (processPage s env p).2)).flatten) := by
  intro pages
  induction pages with
  | nil => intro t results errs; simp [scanPages]
  | cons p rest ih =>
    intro t results errs
    simp only [List.map_cons, scanPages, ih]
    simp [List.append_assoc, Nat.add_assoc]

/-- Inversion of the page loop: a successful return means every page
listing succeeded, and characterizes all components of the result. -/
theorem scanPages_ok_inv {s : Scanner} {env : Env} :
    ∀ (pagesE : List (Except String (List Repository))) (t : Nat)
      (results : List WorkflowInfo) (errs : List String) (res : ScanResult)
      (oerrs : List String),
    scanPages s env pagesE t results errs = Except.ok (res, oerrs) →
    ∃ pages : List (List Repository),
      pagesE = pages.map Except.ok ∧
      res.workflows =
        results ++ (pages.map (fun p => (processPage s env p).1)).flatten ∧
      res.totalRepos = t + (pages.map List.length).sum ∧
      res.excludedReposCount = 0 ∧
      oerrs = errs ++ (pages.map (fun p => (processPage s env p).2)).flatten := by
  intro pagesE
  induction pagesE with
  | nil =>
    intro t results errs res oerrs h
    simp only [scanPages, Except.ok.injEq, Prod.mk.injEq] at h
    obtain ⟨h1, h2⟩ := h
    exact ⟨[], by simp, by simp [← h1], by simp [← h1], by simp [← h1],
      by simp [← h2]⟩
  | cons page rest ih =>
    intro t results errs res oerrs h
    cases page with
    | error e => simp [scanPages] at h
    | ok repos =>
      simp only [scanPages] at h
      obtain ⟨pages, hpg, hw, ht, hx, he⟩ := ih _ _ _ _ _ h
      refine ⟨repos :: pages, by simp [hpg], ?_, ?_, hx, ?_⟩
      · simp [hw, List.append_assoc]
      · simp [ht, Nat.add_assoc]
      · simp [he, List.append_assoc]

/-- A page-listing error anywhere in the page sequence makes the page loop
return an error (the first error page encountered aborts it). -/
theorem scanPages_error_of_error_page (s : Scanner) (env : Env) (e : String)
    (post : List (Except String (List Repository))) :
    ∀ (pre : List (Except String (List Repository))) (t : Nat)
      (results : List WorkflowInfo) (errs : List String),
    ∃ msg, scanPages s env (pre ++ Except.error e :: post) t results errs =
      Except.error msg := by
  intro pre
  induction pre with
  | nil =>
    intro t results errs
    exact ⟨"failed to list repositories: " ++ e, rfl⟩
  | cons page rest ih =>
    intro t results errs
    cases page with
    | error e' => exact ⟨"failed to list repositories: " ++ e', rfl⟩
    | ok repos =>
      simp only [List.cons_append, scanPages]
      exact ih _ _ _

/-- C3 (Fatal repository-listing failure): if any page of the repository
listing returns an error — including a page after the first —
ScanScheduledWorkflows returns an error and no result: the listing-failure
path never produces a partial ScanResult. -/
theorem scan_listing_failure_fatal (s : Scanner) (env : Env)
    (pre post : List (Except String (List Repository))) (e : String)
    (h : env.listByOrg = pre ++ Except.error e :: post) :
    ∃ msg, scanScheduledWorkflows s env = Except.error msg := by
  unfold scanScheduledWorkflows
  rw [h]
  exact scanPages_error_of_error_page s env e post pre 0 [] []

/-- Witness for C3: the second of three listing pages fails. -/
theorem scan_listing_failure_fatal_witness :
    ∃ msg, scanScheduledWorkflows scannerPlain envListingFail =
      Except.error msg :=
  scan_listing_failure_fatal scannerPlain envListingFail [Except.ok [repoA]]
    [Except.ok [repoB]] "connection reset" rfl

/-- C9 (Total-repository-count semantics): a successful scan's TotalRepos is
the number of repositories returned by the paginated listing across all
pages — counted before any archived/exclusion filtering. -/
theorem scan_totalRepos_counts_all_listed (s : Scanner) (env : Env)
    (res : ScanResult) (errs : List String)
    (h : scanScheduledWorkflows s env = Except.ok (res, errs)) :
    ∃ pages : List (List Repository),
      env.listByOrg = pages.map Except.ok ∧
      res.totalRepos = (pages.map List.length).sum := by
  obtain ⟨pages, hpg, _, ht, _, _⟩ := scanPages_ok_inv _ _ _ _ _ _ h
  exact ⟨pages, hpg, by simpa using ht⟩

/-- Witness for C9: three repositories over two pages, one archived, give
TotalRepos = 3. -/
theorem scan_totalRepos_counts_all_listed_witness :
    ∃ pages : List (List Repository),
      envThreeRepos.listByOrg = pages.map Except.ok ∧
      (ScanResult.mk [] 3 0).totalRepos = (pages.map List.length).sum :=
  scan_totalRepos_counts_all_listed scannerPlain envThreeRepos
    (ScanResult.mk [] 3 0) [] rfl

/-- Every workflow of a successful scanRepository was built by
buildWorkflowInfo with a single-element CronSchedules list. -/
theorem scanRepository_cron_len {env : Env} {repo : Repository}
    {l : List WorkflowInfo} (h : scanRepository env repo = Except.ok l) :
    ∀ wi ∈ l, wi.cronSchedules.length = 1 := by
  intro wi hwi
  unfold scanRepository at h
  cases hlw : env.listWorkflows repo.name with
  | error e => rw [hlw] at h; cases h
  | ok wfs =>
    rw [hlw] at h
    injection h with h
    subst h
    obtain ⟨wf, hwf, hf⟩ := List.mem_filterMap.mp hwi
    cases hchk : checkWorkflowSchedule env repo.name wf with
    | mk b sch =>
      rw [hchk] at hf
      cases b with
      | false => cases hf
      | true =>
        injection hf with hf
        subst hf
        simp [buildWorkflowInfo]

/-- C10 (implicit): every WorkflowInfo a successful scan produces has a
CronSchedules list of length exactly one — only the first extracted cron
expression is recorded — so its schedule set is non-empty by construction. -/
theorem scan_workflowInfo_single_cron (s : Scanner) (env : Env)
    (res : ScanResult) (errs : List String)
    (h : scanScheduledWorkflows s env = Except.ok (res, errs)) :
    ∀ wi ∈ res.workflows, wi.cronSchedules.length = 1 := by
  obtain ⟨pages, _, hw, _, _, _⟩ := scanPages_ok_inv _ _ _ _ _ _ h
  intro wi hwi
  rw [hw] at hwi
  rcases List.mem_append.mp hwi with h0 | h1
  · cases h0
  · obtain ⟨lw, hlw, hwi'⟩ := List.mem_flatten.mp h1
    obtain ⟨p, _, hp⟩ := List.mem_map.mp hlw
    subst hp
    obtain ⟨r, _, lr, hok, hmem⟩ := processPage_mem_inv hwi'
    exact scanRepository_cron_len hok wi hmem

/-- C2 (Aggregation completeness under the Lenient policy): when exactly one
of the eligible repositories' workflow-listing calls fails, the scan still
returns a ScanResult (not an error) containing every scheduled workflow of
the remaining repositories, and the failure is appended, wrapped, to the
shared scanErrors collection. -/
theorem scan_lenient_aggregation (s : Scanner) (env : Env)
    (repos : List Repository) (r : Repository) (e : String)
    (hpage : env.listByOrg = [Except.ok repos])
    (hex : s.excludedRepos = [])
    (hr : r ∈ repos)
    (hfail : env.listWorkflows r.name = Except.error e)
    (hothers : ∀ r' ∈ repos, r'.name ≠ r.name →
      ∃ l, scanRepository env r' = Except.ok l) :
    ∃ res oerrs,
      scanScheduledWorkflows s env = Except.ok (res, oerrs) ∧
      (∀ r' ∈ repos, ∀ l, scanRepository env r' = Except.ok l →
        ∀ wi ∈ l, wi ∈ res.workflows) ∧
      ("failed to scan repository " ++ r.name ++ ": " ++
        ("failed to list workflows: " ++ e)) ∈ oerrs := by
  have hscan :
      scanScheduledWorkflows s env =
        Except.ok
          ({ workflows := (processPage s env repos).1,
             totalRepos := repos.length, excludedReposCount := 0 },
           (processPage s env repos).2) := by
    unfold scanScheduledWorkflows
    rw [hpage]
    have := scanPages_eq_of_ok s env [repos] 0 [] []
    simpa using this
  refine ⟨_, _, hscan, ?_, ?_⟩
  · intro r' hr' l hok wi hwi
    exact processPage_mem_of_ok hr' (by simp [hex]) hok wi hwi
  · have herr : scanRepository env r =
        Except.error ("failed to list workflows: " ++ e) := by
      unfold scanRepository
      rw [hfail]
    exact processPage_err_of_error hr (by simp [hex]) herr

/-- Witness for C2: repoA's workflow listing fails, repoB scans fine; the
result keeps repoB's workflow and records repoA's wrapped failure. -/
theorem scan_lenient_aggregation_witness :
    ∃ res oerrs,
      scanScheduledWorkflows scannerPlain envWorkflowListFail =
        Except.ok (res, oerrs) ∧
      (∀ r' ∈ [repoA, repoB], ∀ l,
        scanRepository envWorkflowListFail r' = Except.ok l →
        ∀ wi ∈ l, wi ∈ res.workflows) ∧
      ("failed to scan repository " ++ repoA.name ++ ": " ++
        ("failed to list workflows: " ++ "boom")) ∈ oerrs :=
  scan_lenient_aggregation scannerPlain envWorkflowListFail [repoA, repoB]
    repoA "boom" rfl rfl (by decide) rfl
    (by
      intro r' hr' hne
      rcases List.mem_cons.mp hr' with h1 | h2
      · exact absurd (by rw [h1]) hne
      · rcases List.mem_cons.mp h2 with h1 | h3
        · exact ⟨[wiDaily], by rw [h1]; rfl⟩
        · cases h3)

/-- C4 counterexample: a repository flagged archived in the listing is
scanned anyway — its scheduled workflow appears in the final WorkflowInfo
collection, contradicting the claim that no task is launched for archived
repositories and that none of their workflows appear. -/
theorem scan_archived_counterexample :
    repoLegacy.archived = true ∧
    scanScheduledWorkflows scannerPlain envArchivedScheduled =
      Except.ok
        ({ workflows := [{ wiDaily with repoName := "legacy-batch" }],
           totalRepos := 1, excludedReposCount := 0 }, []) ∧
    ({ wiDaily with repoName := "legacy-batch" }).repoName = repoLegacy.name :=
  ⟨rfl, rfl, rfl⟩

/-- C4 amended: archived repositories are NOT filtered by the scanner — a
scan task is launched for every listed repository that is not in the
exclusion set, regardless of its archived flag, so an archived repository's
scheduled workflows appear in the final collection; archived repositories
are counted in the total repository count. -/
theorem scan_archived_scanned (s : Scanner) (env : Env)
    (repos : List Repository) (r : Repository) (l : List WorkflowInfo)
    (hpage : env.listByOrg = [Except.ok repos])
    (hr : r ∈ repos) (harch : r.archived = true)
    (hex : s.excludedRepos.contains r.name = false)
    (hok : scanRepository env r = Except.ok l) :
    ∃ res oerrs,
      scanScheduledWorkflows s env = Except.ok (res, oerrs) ∧
      (∀ wi ∈ l, wi ∈ res.workflows) ∧
      res.totalRepos = repos.length := by
  have hscan :
      scanScheduledWorkflows s env =
        Except.ok
          ({ workflows := (processPage s env repos).1,
             totalRepos := repos.length, excludedReposCount := 0 },
           (processPage s env repos).2) := by
    unfold scanScheduledWorkflows
    rw [hpage]
    have := scanPages_eq_of_ok s env [repos] 0 [] []
    simpa using this
  exact ⟨_, _, hscan, processPage_mem_of_ok hr hex hok, rfl⟩

/-- Witness for C4's amended claim at the archived fixture. -/
theorem scan_archived_scanned_witness :
    ∃ res oerrs,
      scanScheduledWorkflows scannerPlain envArchivedScheduled =
        Except.ok (res, oerrs) ∧
      (∀ wi ∈ [{ wiDaily with repoName := "legacy-batch" }],
        wi ∈ res.workflows) ∧
      res.totalRepos = [repoLegacy].length :=
  scan_archived_scanned scannerPlain envArchivedScheduled [repoLegacy]
    repoLegacy [{ wiDaily with repoName := "legacy-batch" }] rfl
    (by decide) rfl rfl rfl

/-- C5 (Schedule-extraction purity): a document whose on.schedule array
holds N valid cron entries yields exactly those N cron strings in document
order; for any document the extraction equals the in-order selection of
valid entries (malformed entries contribute nothing, without error); and a
document with no on-map or no schedule array yields the empty sequence. -/
theorem extractSchedules_spec :
    (∀ (crons : List String) (rest : List (String × YVal)),
      extractSchedules (("on", YVal.map [("schedule",
          YVal.arr (crons.map fun c => YVal.map [("cron", YVal.str c)]))])
        :: rest) = crons) ∧
    (∀ (doc onSection : List (String × YVal)) (entries : List YVal),
      ylookup doc "on" = some (YVal.map onSection) →
      ylookup onSection "schedule" = some (YVal.arr entries) →
      extractSchedules doc = entries.filterMap cronOfEntry) ∧
    (∀ doc : List (String × YVal),
      (¬ ∃ onSection entries,
        ylookup doc "on" = some (YVal.map onSection) ∧
        ylookup onSection "schedule" = some (YVal.arr entries)) →
      extractSchedules doc = []) := by
  refine ⟨?_, ?_, ?_⟩
  · intro crons rest
    simp only [extractSchedules, ylookup, List.find?]
    norm_num
    induction crons with
    | nil => rfl
    | cons c cs ih => simpa [ylookup] using ih
  · intro doc onSection entries h1 h2
    simp only [extractSchedules, h1, h2]
    refine List.filterMap_congr ?_
    intro s _
    cases s <;> simp [cronOfEntry]
  · intro doc hno
    cases hon : ylookup doc "on" with
    | none => simp [extractSchedules, hon]
    | some v =>
      cases v with
      | map onSection =>
        cases hsch : ylookup onSection "schedule" with
        | none => simp [extractSchedules, hon, hsch]
        | some w =>
          cases w with
          | arr entries => exact absurd ⟨onSection, entries, hon, hsch⟩ hno
          | str x => simp [extractSchedules, hon, hsch]
          | boolean b => simp [extractSchedules, hon, hsch]
          | num n => simp [extractSchedules, hon, hsch]
          | null => simp [extractSchedules, hon, hsch]
          | map m => simp [extractSchedules, hon, hsch]
      | str x => simp [extractSchedules, hon]
      | boolean b => simp [extractSchedules, hon]
      | num n => simp [extractSchedules, hon]
      | null => simp [extractSchedules, hon]
      | arr a => simp [extractSchedules, hon]

/-- Witness for C5: the two-cron fixture document yields both cron strings
in order; a document without a trigger section yields the empty list. -/
theorem extractSchedules_spec_witness :
    extractSchedules docTwoCrons = ["0 0 * * *", "30 1 * * *"] ∧
    extractSchedules [("name", YVal.str "ci")] = [] :=
  ⟨extractSchedules_spec.1 ["0 0 * * *", "30 1 * * *"] [],
   extractSchedules_spec.2.2 [("name", YVal.str "ci")]
     (by rintro ⟨onSection, entries, h, -⟩; simp [ylookup] at h)⟩

/-- C6 (evaluated at the failing input): with an exclusion list containing
repoB's name and repoB — which carries a valid scheduled workflow — being
the only listed repository, the scan correctly omits repoB's workflows but
reports ExcludedReposCount = 0, not 1: ScanScheduledWorkflows never assigns
the ExcludedReposCount field of models.ScanResult, so it keeps the Go zero
value, although the repo's publishers (slack canvas, console summary)
report this field as the number of excluded repositories. -/
theorem scan_excluded_count_never_set :
    scannerExclB.excludedRepos = ["repoB"] ∧
    scanScheduledWorkflows scannerExclB envTwoCrons =
      Except.ok
        ({ workflows := [], totalRepos := 1, excludedReposCount := 0 }, []) :=
  ⟨rfl, rfl⟩

/-- C7 counterexample: the run-history fetch yields no runs, yet the
produced WorkflowInfo's LastStatus is the empty string, not "Unknown". -/
theorem scan_lastStatus_empty_counterexample :
    envNoRuns.listWorkflowRuns "repoB" 1 = Except.ok [] ∧
    scanScheduledWorkflows scannerPlain envNoRuns =
      Except.ok
        ({ workflows := [{ wiDaily with lastStatus := "" }],
           totalRepos := 1, excludedReposCount := 0 }, []) ∧
    ({ wiDaily with lastStatus := "" }).lastStatus ≠ "Unknown" :=
  ⟨rfl, rfl, by decide⟩

/-- C7 amended: when the run-history fetch fails or yields no runs, the
WorkflowInfo's LastStatus is the empty string (the Go zero value of
`var lastStatus string`), not "Unknown"; otherwise it is the status of the
single most recent run. -/
theorem workflowInfo_lastStatus_default (env : Env) (repo : Repository)
    (wf : Workflow) (schedule : String) :
    ((∀ r rest,
        env.listWorkflowRuns repo.name wf.id ≠ Except.ok (r :: rest)) →
      (buildWorkflowInfo env repo wf schedule).lastStatus = "") ∧
    (∀ r rest,
      env.listWorkflowRuns repo.name wf.id = Except.ok (r :: rest) →
      (buildWorkflowInfo env repo wf schedule).lastStatus = r.status) := by
  constructor
  · intro h
    simp only [buildWorkflowInfo, lastRunStatus]
  · intro r rest h
    simp [buildWorkflowInfo, lastRunStatus, h]

/-- Witness for C7's amended claim: under the no-runs fixture the produced
LastStatus is the empty string. -/
theorem workflowInfo_lastStatus_default_witness :
    (buildWorkflowInfo envNoRuns repoB wfDaily "0 0 * * *").lastStatus = "" :=
  (workflowInfo_lastStatus_default envNoRuns repoB wfDaily "0 0 * * *").1
    (by
      intro r rest h
      exact List.cons_ne_nil r rest (Except.ok.inj h).symm)

/-- C8 counterexample: the only listed repository's only workflow has
content that fails to parse as YAML; the scan finishes with an empty error
collection — the parse failure is not recorded, contradicting the claim
that it is appended to the shared error collection. -/
theorem scan_parse_failure_silent_counterexample :
    envParseFail.parseYaml "doc" = Except.error "yaml: unmarshal errors" ∧
    checkWorkflowSchedule envParseFail "repoB" wfDaily = (false, "") ∧
    scanScheduledWorkflows scannerPlain envParseFail =
      Except.ok
        ({ workflows := [], totalRepos := 1, excludedReposCount := 0 }, []) :=
  ⟨rfl, rfl, rfl⟩

/-- C8 amended: a workflow whose fetched content fails to parse is logged
and silently skipped exactly like the no-schedule outcome —
checkWorkflowSchedule returns (false, "") — and scanRepository still
succeeds whenever the workflow listing succeeded, so nothing is appended to
the shared error collection for a parse failure. -/
theorem parse_failure_skipped_not_recorded (env : Env) (repoName : String)
    (wf : Workflow) (content e : String)
    (hc : env.getContents repoName wf.path = Except.ok content)
    (hp : env.parseYaml content = Except.error e) :
    checkWorkflowSchedule env repoName wf = (false, "") ∧
    ∀ (repo : Repository) (wfs : List Workflow),
      env.listWorkflows repo.name = Except.ok wfs →
      ∃ l, scanRepository env repo = Except.ok l := by
  constructor
  · simp [checkWorkflowSchedule, hc, hp]
  · intro repo wfs hlw
    simp only [scanRepository, hlw]
    exact ⟨_, rfl⟩

/-- Witness for C8's amended claim at the parse-failure fixture. -/
theorem parse_failure_skipped_not_recorded_witness :
    checkWorkflowSchedule envParseFail "repoB" wfDaily = (false, "") ∧
    ∀ (repo : Repository) (wfs : List Workflow),
      envParseFail.listWorkflows repo.name = Except.ok wfs →
      ∃ l, scanRepository envParseFail repo = Except.ok l :=
  parse_failure_skipped_not_recorded envParseFail "repoB" wfDaily "doc"
    "yaml: unmarshal errors" rfl rfl

/-- Witness for C10: the workflow produced from the two-cron fixture
document has a CronSchedules list of length one. -/
theorem scan_workflowInfo_single_cron_witness :
    wiDaily.cronSchedules.length = 1 :=
  scan_workflowInfo_single_cron scannerPlain envTwoCrons
    { workflows := [wiDaily], totalRepos := 1, excludedReposCount := 0 } []
    rfl wiDaily (by simp)
